import Mathlib

/-!
Verification of the Bitcoin Calculadora price widget (`src/js/main.js`).

The development shallowly embeds the client-side JavaScript: JS numbers are
modelled as rationals extended with `NaN` and the two infinities, JS values
as an inductive covering `undefined`, `null`, booleans, numbers, strings and
plain objects, and the async `fetchBtcPrice` loop as a total state-passing
function over an environment that fixes, per attempted source, the network
outcome (unreachable, HTTP response with an ok flag, and the body delivered
by `response.json()`).  Exceptions raised inside the per-source `try` block
(a rejected fetch, a failing `json()`, a throwing `parsePrice`, or
`formatEur` applied to a value with no `toLocaleString`, i.e. `undefined` or
`null`) are modelled by an explicit `Except` outcome on each step; the
surrounding `catch` turns them into a `continue`, which is what makes the
loop total.
-/

set_option autoImplicit false

namespace BtcCalc

/-! ## JS numbers

A JavaScript number is modelled as a rational, `NaN`, or an infinity.  The
model idealises binary floating point by exact rational arithmetic; the
distinction between `+0` and `-0` is not represented. -/

inductive JsNumber where
  | nan
  | posInf
  | negInf
  | fin (q : ℚ)
deriving DecidableEq, Repr

/-- JS `<=` on numbers: any comparison with `NaN` is false. -/
def jsLe : JsNumber → JsNumber → Bool
  | .nan, _ => false
  | _, .nan => false
  | .negInf, _ => true
  | _, .posInf => true
  | .posInf, _ => false
  | _, .negInf => false
  | .fin x, .fin y => decide (x ≤ y)

/-- JS multiplication: `NaN` is absorbing, an infinity times zero is `NaN`,
an infinity times a nonzero value follows the sign rule. -/
def jsMulN : JsNumber → JsNumber → JsNumber
  | .nan, _ => .nan
  | _, .nan => .nan
  | .fin a, .fin b => .fin (a * b)
  | .posInf, .posInf => .posInf
  | .posInf, .negInf => .negInf
  | .negInf, .posInf => .negInf
  | .negInf, .negInf => .posInf
  | .posInf, .fin b => if b = 0 then .nan else if 0 < b then .posInf else .negInf
  | .negInf, .fin b => if b = 0 then .nan else if 0 < b then .negInf else .posInf
  | .fin a, .posInf => if a = 0 then .nan else if 0 < a then .posInf else .negInf
  | .fin a, .negInf => if a = 0 then .nan else if 0 < a then .negInf else .posInf

/-- JS division: division by zero yields a signed infinity (`0/0` is `NaN`);
a finite value over an infinity yields zero.  (`-0` results collapse to `0`
because the model has a single zero.) -/
def jsDivN : JsNumber → JsNumber → JsNumber
  | .nan, _ => .nan
  | _, .nan => .nan
  | .fin a, .fin b =>
      if b = 0 then (if a = 0 then .nan else if 0 < a then .posInf else .negInf)
      else .fin (a / b)
  | .posInf, .posInf => .nan
  | .posInf, .negInf => .nan
  | .negInf, .posInf => .nan
  | .negInf, .negInf => .nan
  | .posInf, .fin b => if 0 ≤ b then .posInf else .negInf
  | .negInf, .fin b => if 0 ≤ b then .negInf else .posInf
  | .fin _, .posInf => .fin 0
  | .fin _, .negInf => .fin 0

/-- JS `Math.round`: half-up rounding toward positive infinity on finite
values; `NaN` and the infinities are returned unchanged. -/
def jsRoundN : JsNumber → JsNumber
  | .fin q => .fin ((⌊q + 1 / 2⌋ : ℤ) : ℚ)
  | n => n

/-! ## Decimal string parsing

Enough of JS `parseFloat` / `ToNumber` string conversion for the model: an
optional sign, decimal digits with an optional fraction, an optional
exponent, and the `Infinity` forms.  Hexadecimal, octal and binary `Number`
literals are omitted; no claim exercises them. -/

def natOfDigits (ds : List Char) : ℕ :=
  ds.foldl (fun n c => n * 10 + (c.toNat - '0'.toNat)) 0

/-- Value of an integer digit string together with a fraction digit string,
as in `123.45`. -/
def decValue (ints fracs : List Char) : ℚ :=
  (natOfDigits ints : ℚ) + (natOfDigits fracs : ℚ) / (10 : ℚ) ^ fracs.length

/-- Parse `digits [. digits]`; at least one digit must be present on one of
the two sides.  Returns the value and the unconsumed characters. -/
def parseUnsignedDec (cs : List Char) : Option (ℚ × List Char) :=
  let ints := cs.takeWhile Char.isDigit
  let cs1 := cs.dropWhile Char.isDigit
  match cs1 with
  | '.' :: cs2 =>
      let fracs := cs2.takeWhile Char.isDigit
      let cs3 := cs2.dropWhile Char.isDigit
      if ints.isEmpty && fracs.isEmpty then none
      else some (decValue ints fracs, cs3)
  | _ => if ints.isEmpty then none else some ((natOfDigits ints : ℚ), cs1)

/-- Parse an exponent suffix `e`/`E` with optional sign; consumed only when
at least one digit follows, as in JS (`parseFloat "1e"` is `1`). -/
def parseExpSuffix (cs : List Char) : Option (Bool × ℕ × List Char) :=
  match cs with
  | c :: cs1 =>
      if c = 'e' ∨ c = 'E' then
        match cs1 with
        | '+' :: cs2 =>
            let ds := cs2.takeWhile Char.isDigit
            if ds.isEmpty then none else some (false, natOfDigits ds, cs2.dropWhile Char.isDigit)
        | '-' :: cs2 =>
            let ds := cs2.takeWhile Char.isDigit
            if ds.isEmpty then none else some (true, natOfDigits ds, cs2.dropWhile Char.isDigit)
        | _ =>
            let ds := cs1.takeWhile Char.isDigit
            if ds.isEmpty then none else some (false, natOfDigits ds, cs1.dropWhile Char.isDigit)
      else none
  | [] => none

/-- Parse an unsigned float with optional exponent. -/
def parseUnsignedFloat (cs : List Char) : Option (ℚ × List Char) :=
  match parseUnsignedDec cs with
  | none => none
  | some (v, rest) =>
      match parseExpSuffix rest with
      | some (neg, e, rest2) =>
          some (if neg then v / (10 : ℚ) ^ e else v * (10 : ℚ) ^ e, rest2)
      | none => some (v, rest)

/-- Parse a signed float or a signed `Infinity`; the entry point shared by
the `parseFloat` and `ToNumber` string conversions. -/
def parseFloatCore (cs : List Char) : Option (JsNumber × List Char) :=
  let signed : Bool × List Char :=
    match cs with
    | '-' :: cs1 => (true, cs1)
    | '+' :: cs1 => (false, cs1)
    | _ => (false, cs)
  let neg := signed.1
  let cs1 := signed.2
  if cs1.take 8 = "Infinity".data then
    some (if neg then .negInf else .posInf, cs1.drop 8)
  else
    match parseUnsignedFloat cs1 with
    | some (v, rest) => some (.fin (if neg then -v else v), rest)
    | none => none

def isSpaceChar (c : Char) : Bool :=
  c = ' ' ∨ c = '\t' ∨ c = '\n' ∨ c = '\r'

/-- JS `parseFloat` on a string: skip leading whitespace, take the longest
numeric prefix, `NaN` when there is none. -/
def strParseFloat (s : String) : JsNumber :=
  match parseFloatCore (s.data.dropWhile isSpaceChar) with
  | some (n, _) => n
  | none => .nan

/-- JS `ToNumber` on a string: trim whitespace, the empty string is `0`, and
the whole remainder must be numeric, else `NaN`. -/
def strToNumber (s : String) : JsNumber :=
  let cs := ((s.data.dropWhile isSpaceChar).reverse.dropWhile isSpaceChar).reverse
  if cs.isEmpty then .fin 0
  else
    match parseFloatCore cs with
    | some (n, []) => n
    | _ => .nan

/-! ## JS values -/

inductive JsVal where
  | undefined
  | null
  | bool (b : Bool)
  | number (n : JsNumber)
  | str (s : String)
  | obj (fields : List (String × JsVal))

/-- Property access `v[k]`: throws a `TypeError` on `undefined` and `null`,
looks the key up on objects (missing keys give `undefined`), and gives
`undefined` on the remaining primitives (no built-in property of a
primitive is named like a field the parse rules read). -/
def jsGetProp : JsVal → String → Except Unit JsVal
  | .undefined, _ => .error ()
  | .null, _ => .error ()
  | .obj fields, k => .ok ((fields.lookup k).getD .undefined)
  | _, _ => .ok .undefined

/-- JS falsiness: `undefined`, `null`, `false`, `0`, `NaN` and the empty
string are falsy. -/
def jsFalsy : JsVal → Bool
  | .undefined => true
  | .null => true
  | .bool b => !b
  | .number .nan => true
  | .number (.fin q) => decide (q = 0)
  | .number _ => false
  | .str s => decide (s = "")
  | .obj _ => false

/-- JS `ToNumber` on a value; plain objects convert through
`"[object Object]"` and hence to `NaN`. -/
def jsToNumber : JsVal → JsNumber
  | .undefined => .nan
  | .null => .fin 0
  | .bool b => .fin (if b then 1 else 0)
  | .number n => n
  | .str s => strToNumber s
  | .obj _ => .nan

/-- JS `parseFloat` on a value: the argument is first converted to a string;
for a number that decimal round-trip returns the number itself, for
`undefined`, `null`, booleans and plain objects the string is non-numeric. -/
def jsParseFloat : JsVal → JsNumber
  | .str s => strParseFloat s
  | .number n => n
  | _ => .nan

/-! ## Configured price sources (`API_SOURCES`, main.js lines 8-24) -/

/-- A configured price source: a display name, an endpoint URL, and the
source-specific parse rule applied to the decoded JSON body.  A parse rule
is a JS function and may throw (property access on `undefined`/`null`). -/
structure ApiSource where
  name : String
  url : String
  parsePrice : JsVal → Except Unit JsVal

/-- CoinGecko parse rule: `(data) => data.bitcoin.eur`. -/
def coinGeckoParsePrice (data : JsVal) : Except Unit JsVal :=
  (jsGetProp data "bitcoin").bind fun b => jsGetProp b "eur"

/-- Blockchain.info parse rule: `(data) => data.EUR.last`. -/
def blockchainParsePrice (data : JsVal) : Except Unit JsVal :=
  (jsGetProp data "EUR").bind fun e => jsGetProp e "last"

/-- CoinCap parse rule: `(data) => parseFloat(data.data.priceUsd) * 0.92`
(the hardcoded USD-to-EUR multiplier; `0.92` is exact in the rational
model). -/
def coinCapParsePrice (data : JsVal) : Except Unit JsVal :=
  (jsGetProp data "data").bind fun d =>
    (jsGetProp d "priceUsd").bind fun p =>
      .ok (.number (jsMulN (jsParseFloat p) (.fin (92 / 100))))

def API_SOURCES : List ApiSource :=
  [ { name := "CoinGecko",
      url := "https://api.coingecko.com/api/v3/simple/price?ids=bitcoin&vs_currencies=eur",
      parsePrice := coinGeckoParsePrice },
    { name := "Blockchain.info",
      url := "https://blockchain.info/ticker",
      parsePrice := blockchainParsePrice },
    { name := "CoinCap",
      url := "https://api.coincap.io/v2/assets/bitcoin",
      parsePrice := coinCapParsePrice } ]

/-! ## Shared state, UI elements and the network environment -/

/-- The two module-level mutable bindings
(`let btcPrice = null; let currentApiSource = null;`). -/
structure FetchState where
  btcPrice : JsVal
  currentApiSource : JsVal

/-- The initial module state. -/
def initialState : FetchState := ⟨.null, .null⟩

/-- `getBtcPrice()` (main.js line 88). -/
def getBtcPrice (st : FetchState) : JsVal := st.btcPrice

/-- What the `#btc-price` element can display.  The `formatEur` rendering
itself (locale digit grouping) is abstracted to the constructor argument;
no claim inspects the rendered characters. -/
inductive PriceText where
  | initialText (s : String)
  | priceShown (v : JsVal)
  | noConnection

/-- What the `#api-source` element can display (`vía ${name}`). -/
inductive SourceText where
  | initialText (s : String)
  | viaSource (name : String)
deriving DecidableEq

/-- The three optional presentation elements; `none` models
`document.getElementById` returning `null` (no UI attached). -/
structure UIState where
  priceDotClass : Option String
  priceDisplayText : Option PriceText
  apiSourceText : Option SourceText

/-- A UI with no elements attached. -/
def noUI : UIState := ⟨none, none, none⟩

/-- The outcome `fetch(api.url)` resolves to for one source: either the
promise rejects (source unreachable), or a response arrives with its `ok`
flag and the outcome of `response.json()` (which itself may throw on a
malformed body). -/
structure JsResponse where
  ok : Bool
  body : Except Unit JsVal

inductive NetResult where
  | netError
  | success (resp : JsResponse)

/-- The network environment for one `fetchBtcPrice` call: the result of the
`k`-th fetch performed.  Sources are attempted in list order, so attempt `k`
targets source `k`. -/
def NetEnv : Type := ℕ → NetResult

/-- `formatEur(v)` begins with `v.toLocaleString(...)`, which throws a
`TypeError` exactly when `v` is `undefined` or `null` (every other value,
including `NaN` and plain objects, inherits `toLocaleString`). -/
def formatEurThrows : JsVal → Bool
  | .undefined => true
  | .null => true
  | _ => false

/-- UI updates on the success path (main.js lines 41-43): price display,
source display, and the dot back to its idle class. -/
def uiSuccess (ui : UIState) (v : JsVal) (name : String) : UIState :=
  { priceDotClass := ui.priceDotClass.map (fun _ => "price-dot"),
    priceDisplayText := ui.priceDisplayText.map (fun _ => PriceText.priceShown v),
    apiSourceText := ui.apiSourceText.map (fun _ => SourceText.viaSource name) }

/-- UI updates after all sources are exhausted (main.js lines 51-52). -/
def uiFail (ui : UIState) : UIState :=
  { ui with
    priceDisplayText := ui.priceDisplayText.map (fun _ => PriceText.noConnection),
    priceDotClass := ui.priceDotClass.map (fun _ => "price-dot error") }

/-- The dot set to `loading` before the loop (main.js line 33). -/
def uiLoading (ui : UIState) : UIState :=
  { ui with priceDotClass := ui.priceDotClass.map (fun _ => "price-dot loading") }

/-! ## One iteration of the source loop (the `try` block, main.js 35-49) -/

/-- Result of one iteration's `try` block: `outcome` is `.ok (some v)` when
the block reached `return btcPrice`, `.ok none` when it ran `continue` on a
non-ok response, and `.error ()` when it threw (the `catch` then continues).
`st`/`ui`/`events` are the shared state, UI and dispatched
`btcPriceUpdated` payloads at the block's exit — state mutated before a
later throw stays mutated. -/
structure StepOut where
  outcome : Except Unit (Option JsVal)
  st : FetchState
  ui : UIState
  events : List JsVal

/-- One iteration of the `for (const api of API_SOURCES)` loop on source
`api` with network outcome `r`.  Mirrors main.js lines 35-49:
`fetch` (rejection throws), the `response.ok` guard, `response.json()`
(throws on malformed body), `api.parsePrice(data)` (may throw; only on
normal return are `btcPrice` and `currentApiSource` assigned), then —
still inside `try` — `formatEur(btcPrice)` when the price display exists
(throws on `undefined`/`null`), the remaining UI writes, the
`btcPriceUpdated` dispatch, and `return btcPrice`. -/
def stepSource (api : ApiSource) (r : NetResult) (st : FetchState) (ui : UIState) : StepOut :=
  match r with
  | .netError => ⟨.error (), st, ui, []⟩
  | .success resp =>
      if resp.ok = false then ⟨.ok none, st, ui, []⟩
      else
        match resp.body with
        | .error _ => ⟨.error (), st, ui, []⟩
        | .ok data =>
            match api.parsePrice data with
            | .error _ => ⟨.error (), st, ui, []⟩
            | .ok v =>
                let st' : FetchState := ⟨v, .str api.name⟩
                if ui.priceDisplayText.isSome && formatEurThrows v then
                  ⟨.error (), st', ui, []⟩
                else
                  ⟨.ok (some v), st', uiSuccess ui v api.name, [v]⟩

/-! ## The fetch loop -/

/-- Observable result of a `fetchBtcPrice` call: the returned value
(`.null` on the all-failed path), the shared state and UI at exit, how many
sources were attempted (`fetch` invoked), and the dispatched event
payloads. -/
structure FetchResult where
  ret : JsVal
  state : FetchState
  ui : UIState
  attempts : ℕ
  events : List JsVal

def bumpAttempts (r : FetchResult) : FetchResult :=
  { r with attempts := r.attempts + 1 }

/-- The source loop (main.js lines 34-53).  The environment is shifted by
one on each recursive call so that the head source always reads `env 0`.
Both `continue` paths — the non-ok response and the `catch` of a thrown
error — proceed to the next source with whatever state the iteration left
behind. -/
def runSources (env : NetEnv) : List ApiSource → FetchState → UIState → FetchResult
  | [], st, ui => ⟨.null, st, uiFail ui, 0, []⟩
  | api :: rest, st, ui =>
      match stepSource api (env 0) st ui with
      | ⟨.ok (some v), st', ui', evs⟩ => ⟨v, st', ui', 1, evs⟩
      | ⟨.ok none, st', ui', _⟩ => bumpAttempts (runSources (fun n => env (n + 1)) rest st' ui')
      | ⟨.error _, st', ui', _⟩ => bumpAttempts (runSources (fun n => env (n + 1)) rest st' ui')

/-- `fetchBtcPrice()` over a configured source list: set the dot to
`loading`, then run the fallback loop. -/
def fetchBtcPrice (sources : List ApiSource) (env : NetEnv) (st : FetchState)
    (ui : UIState) : FetchResult :=
  runSources env sources st (uiLoading ui)

/-- The source loop with the JS exception channel kept at the boundary: a
value of `.error e` would mean an exception escaping `fetchBtcPrice`.  The
`catch` branch turning a thrown step into a `continue` is the only handler;
everything after it (the final UI writes and `return null`) cannot throw. -/
def runSourcesE (env : NetEnv) : List ApiSource → FetchState → UIState →
    Except Unit FetchResult
  | [], st, ui => .ok ⟨.null, st, uiFail ui, 0, []⟩
  | api :: rest, st, ui =>
      match stepSource api (env 0) st ui with
      | ⟨.ok (some v), st', ui', evs⟩ => .ok ⟨v, st', ui', 1, evs⟩
      | ⟨.ok none, st', ui', _⟩ =>
          (runSourcesE (fun n => env (n + 1)) rest st' ui').map bumpAttempts
      | ⟨.error _, st', ui', _⟩ =>
          (runSourcesE (fun n => env (n + 1)) rest st' ui').map bumpAttempts

/-- `fetchBtcPrice()` with the exception channel exposed. -/
def fetchBtcPriceE (sources : List ApiSource) (env : NetEnv) (st : FetchState)
    (ui : UIState) : Except Unit FetchResult :=
  runSourcesE env sources st (uiLoading ui)

/-! ## Conversion functions (main.js lines 69-72) -/

/-- `eurToBtc(eur)`: `if (!btcPrice || eur <= 0) return 0; return eur / btcPrice;`
with the module-level `btcPrice` passed explicitly. -/
def eurToBtc (price : JsVal) (eur : JsNumber) : JsNumber :=
  if jsFalsy price || jsLe eur (.fin 0) then .fin 0
  else jsDivN eur (jsToNumber price)

/-- `eurToSats(eur)`: `Math.round(eurToBtc(eur) * 100000000)`. -/
def eurToSats (price : JsVal) (eur : JsNumber) : JsNumber :=
  jsRoundN (jsMulN (eurToBtc price eur) (.fin 100000000))

/-- `btcToEur(btc)`: `if (!btcPrice || btc <= 0) return 0; return btc * btcPrice;`. -/
def btcToEur (price : JsVal) (btc : JsNumber) : JsNumber :=
  if jsFalsy price || jsLe btc (.fin 0) then .fin 0
  else jsMulN btc (jsToNumber price)

/-- `satsToEur(sats)`: `btcToEur(sats / 100000000)`. -/
def satsToEur (price : JsVal) (sats : JsNumber) : JsNumber :=
  btcToEur price (jsDivN sats (.fin 100000000))

/-! ## Predicates used by the claims -/

/-- Source failure in the sense of the spec's error taxonomy: unreachable,
non-ok response, malformed JSON body, or a throwing parse rule. -/
def sourceFails (api : ApiSource) (r : NetResult) : Prop :=
  match r with
  | .netError => True
  | .success resp =>
      resp.ok = false ∨ resp.body = .error () ∨
        ∃ data, resp.body = .ok data ∧ api.parsePrice data = .error ()

/-- A structurally valid numeric price: a finite JS number. -/
def isValidPrice : JsVal → Bool
  | .number (.fin _) => true
  | _ => false

/-! ## Characterisation lemmas for the loop body -/

theorem stepSource_netError (api : ApiSource) (st : FetchState) (ui : UIState) :
    stepSource api .netError st ui = ⟨.error (), st, ui, []⟩ := rfl

theorem stepSource_fails {api : ApiSource} {r : NetResult} (st : FetchState) (ui : UIState)
    (h : sourceFails api r) :
    ∃ o, (o = Except.ok none ∨ o = Except.error ()) ∧
      stepSource api r st ui = ⟨o, st, ui, []⟩ := by
  cases r with
  | netError => exact ⟨.error (), Or.inr rfl, rfl⟩
  | success resp =>
      obtain ⟨ok, body⟩ := resp
      rcases h with hok | hbody | ⟨data, hbody, hparse⟩
      · simp only at hok; subst hok
        exact ⟨.ok none, Or.inl rfl, rfl⟩
      · simp only at hbody; subst hbody
        cases ok
        · exact ⟨.ok none, Or.inl rfl, rfl⟩
        · exact ⟨.error (), Or.inr rfl, rfl⟩
      · simp only at hbody; subst hbody
        cases ok
        · exact ⟨.ok none, Or.inl rfl, rfl⟩
        · refine ⟨.error (), Or.inr rfl, ?_⟩
          simp [stepSource, hparse]

theorem stepSource_parseOk {api : ApiSource} {resp : JsResponse} {data v : JsVal}
    (st : FetchState) (ui : UIState)
    (hok : resp.ok = true) (hbody : resp.body = .ok data) (hparse : api.parsePrice data = .ok v)
    (hrender : (ui.priceDisplayText.isSome && formatEurThrows v) = false) :
    stepSource api (.success resp) st ui =
      ⟨.ok (some v), ⟨v, .str api.name⟩, uiSuccess ui v api.name, [v]⟩ := by
  obtain ⟨ok, body⟩ := resp
  simp only at hok hbody
  subst hok; subst hbody
  simp [stepSource, hparse, hrender]

theorem stepSource_renderThrow {api : ApiSource} {resp : JsResponse} {data v : JsVal}
    (st : FetchState) (ui : UIState)
    (hok : resp.ok = true) (hbody : resp.body = .ok data) (hparse : api.parsePrice data = .ok v)
    (hrender : (ui.priceDisplayText.isSome && formatEurThrows v) = true) :
    stepSource api (.success resp) st ui = ⟨.error (), ⟨v, .str api.name⟩, ui, []⟩ := by
  obtain ⟨ok, body⟩ := resp
  simp only at hok hbody
  subst hok; subst hbody
  simp [stepSource, hrender, hparse]

theorem runSources_nil (env : NetEnv) (st : FetchState) (ui : UIState) :
    runSources env [] st ui = ⟨.null, st, uiFail ui, 0, []⟩ := rfl

theorem runSources_cons_success {env : NetEnv} {api : ApiSource} {rest : List ApiSource}
    {st st' : FetchState} {ui ui' : UIState} {v : JsVal} {evs : List JsVal}
    (h : stepSource api (env 0) st ui = ⟨.ok (some v), st', ui', evs⟩) :
    runSources env (api :: rest) st ui = ⟨v, st', ui', 1, evs⟩ := by
  unfold runSources
  rw [h]

theorem runSources_cons_continue {env : NetEnv} {api : ApiSource} {rest : List ApiSource}
    {st st' : FetchState} {ui ui' : UIState} {o : Except Unit (Option JsVal)}
    {evs : List JsVal}
    (ho : o = Except.ok none ∨ o = Except.error ())
    (h : stepSource api (env 0) st ui = ⟨o, st', ui', evs⟩) :
    runSources env (api :: rest) st ui =
      bumpAttempts (runSources (fun n => env (n + 1)) rest st' ui') := by
  conv_lhs => unfold runSources
  rcases ho with ho | ho <;> subst ho <;> rw [h]

theorem runSourcesE_cons_success {env : NetEnv} {api : ApiSource} {rest : List ApiSource}
    {st st' : FetchState} {ui ui' : UIState} {v : JsVal} {evs : List JsVal}
    (h : stepSource api (env 0) st ui = ⟨.ok (some v), st', ui', evs⟩) :
    runSourcesE env (api :: rest) st ui = .ok ⟨v, st', ui', 1, evs⟩ := by
  unfold runSourcesE
  rw [h]

theorem runSourcesE_cons_continue {env : NetEnv} {api : ApiSource} {rest : List ApiSource}
    {st st' : FetchState} {ui ui' : UIState} {o : Except Unit (Option JsVal)}
    {evs : List JsVal}
    (ho : o = Except.ok none ∨ o = Except.error ())
    (h : stepSource api (env 0) st ui = ⟨o, st', ui', evs⟩) :
    runSourcesE env (api :: rest) st ui =
      (runSourcesE (fun n => env (n + 1)) rest st' ui').map bumpAttempts := by
  conv_lhs => unfold runSourcesE
  rcases ho with ho | ho <;> subst ho <;> rw [h]

theorem runSourcesE_nil (env : NetEnv) (st : FetchState) (ui : UIState) :
    runSourcesE env [] st ui = .ok ⟨.null, st, uiFail ui, 0, []⟩ := rfl

/-- Every iteration of the loop body either leaves state, UI and events
untouched and continues (the source failed in the spec's taxonomy), or the
parse returned a value `v`, both state fields were assigned, and the block
then either threw while rendering (`v` unrenderable with a price display
attached) or returned `v`. -/
theorem stepSource_trichotomy (api : ApiSource) (r : NetResult) (st : FetchState)
    (ui : UIState) :
    (sourceFails api r ∧ ∃ o, (o = Except.ok none ∨ o = Except.error ()) ∧
        stepSource api r st ui = ⟨o, st, ui, []⟩) ∨
    (∃ resp data v, r = .success resp ∧ resp.ok = true ∧ resp.body = .ok data ∧
        api.parsePrice data = .ok v ∧
        (((ui.priceDisplayText.isSome && formatEurThrows v) = true ∧
            stepSource api r st ui = ⟨.error (), ⟨v, .str api.name⟩, ui, []⟩) ∨
         ((ui.priceDisplayText.isSome && formatEurThrows v) = false ∧
            stepSource api r st ui =
              ⟨.ok (some v), ⟨v, .str api.name⟩, uiSuccess ui v api.name, [v]⟩))) := by
  cases r with
  | netError =>
      exact Or.inl ⟨trivial, .error (), Or.inr rfl, rfl⟩
  | success resp =>
      obtain ⟨ok, body⟩ := resp
      cases ok with
      | false =>
          exact Or.inl ⟨Or.inl rfl, .ok none, Or.inl rfl, rfl⟩
      | true =>
          cases body with
          | error e =>
              exact Or.inl ⟨Or.inr (Or.inl rfl), .error (), Or.inr rfl, rfl⟩
          | ok data =>
              cases hparse : api.parsePrice data with
              | error e =>
                  refine Or.inl ⟨Or.inr (Or.inr ⟨data, rfl, ?_⟩), .error (), Or.inr rfl, ?_⟩
                  · cases e; exact hparse
                  · simp [stepSource, hparse]
              | ok v =>
                  refine Or.inr ⟨⟨true, .ok data⟩, data, v, rfl, rfl, rfl, hparse, ?_⟩
                  cases hrender : ui.priceDisplayText.isSome && formatEurThrows v with
                  | true =>
                      exact Or.inl ⟨rfl, stepSource_renderThrow st ui rfl rfl hparse hrender⟩
                  | false =>
                      exact Or.inr ⟨rfl, stepSource_parseOk st ui rfl rfl hparse hrender⟩

/-- When every source in the list fails, the loop leaves the shared state
untouched, attempts every source once in order, dispatches nothing, and
falls through to the failure UI and `return null`. -/
theorem runSources_allFail {env : NetEnv} {sources : List ApiSource}
    {st : FetchState} {ui : UIState}
    (h : ∀ i (hi : i < sources.length), sourceFails (sources.get ⟨i, hi⟩) (env i)) :
    runSources env sources st ui = ⟨.null, st, uiFail ui, sources.length, []⟩ := by
  induction sources generalizing env ui with
  | nil => rfl
  | cons api rest ih =>
      have h0 : sourceFails api (env 0) := by simpa using h 0 (Nat.succ_pos _)
      obtain ⟨o, ho, hstep⟩ := stepSource_fails st ui h0
      rw [runSources_cons_continue ho hstep]
      rw [ih (fun i hi => by simpa using h (i + 1) (Nat.succ_lt_succ hi))]
      rfl

/-- When every source before index `i` fails and source `i` delivers an ok
response whose body parses to a renderable value `v`, the loop stops at
`i`: it records `v` and source `i`'s name, performs the success UI writes,
dispatches one `btcPriceUpdated` event, returns `v`, and attempts exactly
the sources up to and including `i`. -/
theorem runSources_firstSuccess {env : NetEnv} {sources : List ApiSource}
    {st : FetchState} {ui : UIState} {i : ℕ} (hi : i < sources.length)
    {resp : JsResponse} {data v : JsVal}
    (hfail : ∀ j (hj : j < sources.length), j < i → sourceFails (sources.get ⟨j, hj⟩) (env j))
    (henv : env i = .success resp) (hok : resp.ok = true) (hbody : resp.body = .ok data)
    (hparse : (sources.get ⟨i, hi⟩).parsePrice data = .ok v)
    (hrender : formatEurThrows v = false) :
    runSources env sources st ui =
      ⟨v, ⟨v, .str ((sources.get ⟨i, hi⟩).name)⟩,
        uiSuccess ui v ((sources.get ⟨i, hi⟩).name), i + 1, [v]⟩ := by
  induction sources generalizing env ui st i with
  | nil => exact absurd hi (Nat.not_lt_zero _)
  | cons api rest ih =>
      cases i with
      | zero =>
          have hparse' : api.parsePrice data = .ok v := by simpa using hparse
          have hstep := @stepSource_parseOk api resp data v st ui hok hbody hparse'
            (by simp [hrender])
          rw [← henv] at hstep
          simp only [List.get_cons_zero, Nat.zero_add]
          exact runSources_cons_success hstep
      | succ i' =>
          have h0 : sourceFails api (env 0) := by
            simpa using hfail 0 (Nat.succ_pos _) (Nat.succ_pos _)
          obtain ⟨o, ho, hstep⟩ := stepSource_fails st ui h0
          rw [runSources_cons_continue ho hstep]
          have hi' : i' < rest.length := Nat.lt_of_succ_lt_succ hi
          have hparse' : (rest.get ⟨i', hi'⟩).parsePrice data = .ok v := by
            simpa using hparse
          rw [ih hi'
            (fun j hj hji => by
              simpa using hfail (j + 1) (Nat.succ_lt_succ hj) (Nat.succ_lt_succ hji))
            henv hparse']
          simp [bumpAttempts]

/-- Provenance of the recorded price: after a run of the loop the shared
`btcPrice` is either exactly what it was before, or the value some source's
parse rule returned on the body of an ok response during that run. -/
theorem runSources_price_provenance (env : NetEnv) (sources : List ApiSource)
    (st : FetchState) (ui : UIState) :
    (runSources env sources st ui).state.btcPrice = st.btcPrice ∨
      ∃ (i : ℕ) (hi : i < sources.length) (resp : JsResponse) (data : JsVal),
        env i = .success resp ∧ resp.ok = true ∧ resp.body = .ok data ∧
        (sources.get ⟨i, hi⟩).parsePrice data =
          .ok ((runSources env sources st ui).state.btcPrice) := by
  induction sources generalizing env st ui with
  | nil => exact Or.inl rfl
  | cons api rest ih =>
      rcases stepSource_trichotomy api (env 0) st ui with
        ⟨_, o, ho, hstep⟩ | ⟨resp, data, v, henv, hok, hbody, hparse, hcase⟩
      · rw [runSources_cons_continue ho hstep]
        rcases ih (fun n => env (n + 1)) st ui with hsame | ⟨i, hi, resp, data, h1, h2, h3, h4⟩
        · exact Or.inl hsame
        · exact Or.inr ⟨i + 1, Nat.succ_lt_succ hi, resp, data, h1, h2, h3, by simpa using h4⟩
      · rcases hcase with ⟨hrender, hstep⟩ | ⟨hrender, hstep⟩
        · rw [runSources_cons_continue (Or.inr rfl) hstep]
          rcases ih (fun n => env (n + 1)) ⟨v, .str api.name⟩ ui with hsame | ⟨i, hi, resp', data', h1, h2, h3, h4⟩
          · refine Or.inr ⟨0, Nat.succ_pos _, resp, data, henv, hok, hbody, ?_⟩
            simp only [bumpAttempts]
            rw [hsame]
            simpa using hparse
          · exact Or.inr ⟨i + 1, Nat.succ_lt_succ hi, resp', data', h1, h2, h3, by simpa using h4⟩
        · rw [runSources_cons_success hstep]
          exact Or.inr ⟨0, Nat.succ_pos _, resp, data, henv, hok, hbody, by simpa using hparse⟩

/-- When a run of the loop returns a value other than `null`, some source
`i` delivered it: its response was ok, its parse rule returned exactly the
returned value, the shared state holds that value and that source's name,
and the loop stopped right after source `i`. -/
theorem runSources_ret_of_ne_null {env : NetEnv} {sources : List ApiSource}
    {st : FetchState} {ui : UIState}
    (h : (runSources env sources st ui).ret ≠ .null) :
    ∃ (i : ℕ) (hi : i < sources.length) (resp : JsResponse) (data : JsVal),
      env i = .success resp ∧ resp.ok = true ∧ resp.body = .ok data ∧
      (sources.get ⟨i, hi⟩).parsePrice data = .ok ((runSources env sources st ui).ret) ∧
      (runSources env sources st ui).state.btcPrice = (runSources env sources st ui).ret ∧
      (runSources env sources st ui).state.currentApiSource =
        .str ((sources.get ⟨i, hi⟩).name) ∧
      (runSources env sources st ui).attempts = i + 1 := by
  induction sources generalizing env st ui with
  | nil => exact absurd rfl h
  | cons api rest ih =>
      rcases stepSource_trichotomy api (env 0) st ui with
        ⟨_, o, ho, hstep⟩ | ⟨resp, data, v, henv, hok, hbody, hparse, hcase⟩
      · rw [runSources_cons_continue ho hstep] at h ⊢
        obtain ⟨i, hi, resp, data, h1, h2, h3, h4, h5, h6, h7⟩ := ih h
        exact ⟨i + 1, Nat.succ_lt_succ hi, resp, data, h1, h2, h3, by simpa using h4,
          h5, by simpa using h6, by simp [bumpAttempts, h7]⟩
      · rcases hcase with ⟨hrender, hstep⟩ | ⟨hrender, hstep⟩
        · rw [runSources_cons_continue (Or.inr rfl) hstep] at h ⊢
          obtain ⟨i, hi, resp', data', h1, h2, h3, h4, h5, h6, h7⟩ := ih h
          exact ⟨i + 1, Nat.succ_lt_succ hi, resp', data', h1, h2, h3, by simpa using h4,
            h5, by simpa using h6, by simp [bumpAttempts, h7]⟩
        · rw [runSources_cons_success hstep] at h ⊢
          exact ⟨0, Nat.succ_pos _, resp, data, henv, hok, hbody, by simpa using hparse,
            rfl, by simp, rfl⟩

/-- When no configured parse rule can return an unrenderable value
(`undefined` or `null`), the loop's returned value, shared state, attempt
count and dispatched events do not depend on which UI elements are
attached. -/
theorem runSources_ui_independent {sources : List ApiSource}
    (hsafe : ∀ i (hi : i < sources.length) data v,
      (sources.get ⟨i, hi⟩).parsePrice data = .ok v → formatEurThrows v = false)
    (env : NetEnv) (st : FetchState) (ui₁ ui₂ : UIState) :
    (runSources env sources st ui₁).ret = (runSources env sources st ui₂).ret ∧
    (runSources env sources st ui₁).state = (runSources env sources st ui₂).state ∧
    (runSources env sources st ui₁).attempts = (runSources env sources st ui₂).attempts ∧
    (runSources env sources st ui₁).events = (runSources env sources st ui₂).events := by
  induction sources generalizing env st ui₁ ui₂ with
  | nil => exact ⟨rfl, rfl, rfl, rfl⟩
  | cons api rest ih =>
      rcases stepSource_trichotomy api (env 0) st ui₁ with
        ⟨hfails, o, ho, hstep₁⟩ | ⟨resp, data, v, henv, hok, hbody, hparse, hcase⟩
      · obtain ⟨o₂, ho₂, hstep₂⟩ := stepSource_fails st ui₂ hfails
        rw [runSources_cons_continue ho hstep₁, runSources_cons_continue ho₂ hstep₂]
        obtain ⟨e1, e2, e3, e4⟩ :=
          ih (fun i hi data v h => hsafe (i + 1) (Nat.succ_lt_succ hi) data v (by simpa using h))
            (fun n => env (n + 1)) st ui₁ ui₂
        exact ⟨e1, e2, by simp [bumpAttempts, e3], e4⟩
      · have hv : formatEurThrows v = false :=
          hsafe 0 (Nat.succ_pos _) data v (by simpa using hparse)
        have hstep₁ : stepSource api (env 0) st ui₁ =
            ⟨.ok (some v), ⟨v, .str api.name⟩, uiSuccess ui₁ v api.name, [v]⟩ := by
          rw [henv]
          exact stepSource_parseOk st ui₁ hok hbody hparse (by simp [hv])
        have hstep₂ : stepSource api (env 0) st ui₂ =
            ⟨.ok (some v), ⟨v, .str api.name⟩, uiSuccess ui₂ v api.name, [v]⟩ := by
          rw [henv]
          exact stepSource_parseOk st ui₂ hok hbody hparse (by simp [hv])
        rw [runSources_cons_success hstep₁, runSources_cons_success hstep₂]
        exact ⟨rfl, rfl, rfl, rfl⟩

/-- The loop with the exception channel exposed never lets an error reach
the boundary: it returns exactly the total model's result wrapped in
`.ok`. -/
theorem runSourcesE_eq_ok (env : NetEnv) (sources : List ApiSource)
    (st : FetchState) (ui : UIState) :
    runSourcesE env sources st ui = .ok (runSources env sources st ui) := by
  induction sources generalizing env st ui with
  | nil => rfl
  | cons api rest ih =>
      rcases stepSource_trichotomy api (env 0) st ui with
        ⟨_, o, ho, hstep⟩ | ⟨resp, data, v, henv, hok, hbody, hparse, hcase⟩
      · rw [runSourcesE_cons_continue ho hstep, runSources_cons_continue ho hstep, ih]
        rfl
      · rcases hcase with ⟨hrender, hstep⟩ | ⟨hrender, hstep⟩
        · rw [runSourcesE_cons_continue (Or.inr rfl) hstep,
            runSources_cons_continue (Or.inr rfl) hstep, ih]
          rfl
        · rw [runSourcesE_cons_success hstep, runSources_cons_success hstep]

/-! ## Concrete scenarios used by witnesses and counterexamples -/

/-- A source whose parse rule returns `undefined` without throwing — the
behaviour of `data.bitcoin.eur` on the body `{"bitcoin": {}}`. -/
def srcUndef : ApiSource := ⟨"A", "https://a.example/price", fun _ => .ok .undefined⟩

/-- A source whose parse rule returns the valid price `50000`. -/
def srcValid : ApiSource := ⟨"B", "https://b.example/price", fun _ => .ok (.number (.fin 50000))⟩

/-- An environment where every request yields an ok response with body `{}`. -/
def envAllOk : NetEnv := fun _ => .success ⟨true, .ok (.obj [])⟩

/-- An environment where every request is rejected. -/
def envAllDown : NetEnv := fun _ => .netError

/-- A CoinGecko body `{"bitcoin": {}}`: the `eur` key is missing, so
`data.bitcoin.eur` evaluates to `undefined` without throwing. -/
def geckoNoEurBody : JsVal := .obj [("bitcoin", .obj [])]

/-- A CoinGecko body `{"bitcoin": {"eur": null}}`: the parse rule returns
`null` without throwing. -/
def geckoNullEurBody : JsVal := .obj [("bitcoin", .obj [("eur", .null)])]

/-- A Blockchain.info body `{"EUR": {"last": 50000}}`. -/
def blockchainBody : JsVal := .obj [("EUR", .obj [("last", .number (.fin 50000))])]

/-- All three presentation elements attached, in their initial states. -/
def uiPresent : UIState :=
  ⟨some "price-dot", some (.initialText ""), some (.initialText "")⟩

/-- Environment for the C3 counterexample: CoinGecko answers ok with
`{"bitcoin": {}}`. -/
def envGeckoNoEur : NetEnv := fun _ => .success ⟨true, .ok geckoNoEurBody⟩

/-- Environment for the C9 counterexample: CoinGecko answers ok with
`{"bitcoin": {}}`, Blockchain.info answers ok with a valid price, CoinCap
is unreachable. -/
def envC9 : NetEnv := fun i =>
  match i with
  | 0 => .success ⟨true, .ok geckoNoEurBody⟩
  | 1 => .success ⟨true, .ok blockchainBody⟩
  | _ => .netError

/-- Environment for the C10 counterexample: CoinGecko answers ok with
`{"bitcoin": {"eur": null}}`. -/
def envGeckoNullEur : NetEnv := fun _ => .success ⟨true, .ok geckoNullEurBody⟩

/-- A state recorded by some earlier successful fetch. -/
def staleState : FetchState := ⟨.number (.fin 100), .str "X"⟩

/-! ## C1 -/

/-- C1, counterexample.  With the configured list `[A, B]` where `A`'s
request succeeds but its parse returns the invalid price `undefined` and
`B` is the first source whose request succeeds with a valid price
(`50000`), `fetchBtcPrice` does not stop at `B`: it stops at `A` after one
attempt and records `A` as the current source, so the claim's conclusion
fails at index `i = 1`. -/
theorem c1_counterexample :
    srcUndef.parsePrice (.obj []) = .ok .undefined ∧
    isValidPrice .undefined = false ∧
    srcValid.parsePrice (.obj []) = .ok (.number (.fin 50000)) ∧
    isValidPrice (.number (.fin 50000)) = true ∧
    (fetchBtcPrice [srcUndef, srcValid] envAllOk initialState noUI).attempts = 1 ∧
    (fetchBtcPrice [srcUndef, srcValid] envAllOk initialState noUI).state.currentApiSource =
      .str "A" ∧
    (fetchBtcPrice [srcUndef, srcValid] envAllOk initialState noUI).state.currentApiSource ≠
      .str "B" := by
  refine ⟨rfl, rfl, rfl, rfl, rfl, rfl, ?_⟩
  show JsVal.str "A" ≠ JsVal.str "B"
  simp

/-- C1, amended: when every source before `i` fails outright (unreachable,
non-ok response, malformed JSON body, or throwing parse) and source `i`'s
request succeeds with its parse returning a valid numeric price, then
`fetchBtcPrice` stops at `i`: it returns that price, records it and source
`i`'s name as the current state, dispatches one update event, and invokes
no source after `i`.  (The original claim let a source before `i` succeed
with an invalid parsed value; the code treats such a source as the winner,
as the counterexample shows.) -/
theorem c1_first_success_wins (sources : List ApiSource) (env : NetEnv)
    (st : FetchState) (ui : UIState) (i : ℕ) (hi : i < sources.length)
    (resp : JsResponse) (data : JsVal) (q : ℚ)
    (hfail : ∀ j (hj : j < sources.length), j < i → sourceFails (sources.get ⟨j, hj⟩) (env j))
    (henv : env i = .success resp) (hok : resp.ok = true) (hbody : resp.body = .ok data)
    (hparse : (sources.get ⟨i, hi⟩).parsePrice data = .ok (.number (.fin q))) :
    (fetchBtcPrice sources env st ui).ret = .number (.fin q) ∧
    (fetchBtcPrice sources env st ui).state.btcPrice = .number (.fin q) ∧
    (fetchBtcPrice sources env st ui).state.currentApiSource =
      .str ((sources.get ⟨i, hi⟩).name) ∧
    (fetchBtcPrice sources env st ui).attempts = i + 1 ∧
    (fetchBtcPrice sources env st ui).events = [.number (.fin q)] := by
  have h := @runSources_firstSuccess env sources st (uiLoading ui) i hi resp data
    (.number (.fin q)) hfail henv hok hbody hparse rfl
  unfold fetchBtcPrice
  rw [h]
  exact ⟨rfl, rfl, rfl, rfl, rfl⟩

/-- C1, witness: with `[A (request fails), B (returns 50000)]` the loop
stops at `B`, records `50000` via `B`, and attempts both sources once. -/
theorem c1_first_success_wins_witness :
    (fetchBtcPrice [⟨"A", "https://a.example/price", fun _ => .error ()⟩, srcValid]
        (fun i => match i with
          | 0 => .netError
          | _ => .success ⟨true, .ok (.obj [])⟩)
        initialState noUI).ret = .number (.fin 50000) ∧
    (fetchBtcPrice [⟨"A", "https://a.example/price", fun _ => .error ()⟩, srcValid]
        (fun i => match i with
          | 0 => .netError
          | _ => .success ⟨true, .ok (.obj [])⟩)
        initialState noUI).state.btcPrice = .number (.fin 50000) ∧
    (fetchBtcPrice [⟨"A", "https://a.example/price", fun _ => .error ()⟩, srcValid]
        (fun i => match i with
          | 0 => .netError
          | _ => .success ⟨true, .ok (.obj [])⟩)
        initialState noUI).state.currentApiSource = .str "B" ∧
    (fetchBtcPrice [⟨"A", "https://a.example/price", fun _ => .error ()⟩, srcValid]
        (fun i => match i with
          | 0 => .netError
          | _ => .success ⟨true, .ok (.obj [])⟩)
        initialState noUI).attempts = 2 ∧
    (fetchBtcPrice [⟨"A", "https://a.example/price", fun _ => .error ()⟩, srcValid]
        (fun i => match i with
          | 0 => .netError
          | _ => .success ⟨true, .ok (.obj [])⟩)
        initialState noUI).events = [.number (.fin 50000)] :=
  c1_first_success_wins _ _ _ _ 1 (by decide) ⟨true, .ok (.obj [])⟩ (.obj []) 50000
    (fun j hj hj1 => by
      interval_cases j
      · exact trivial)
    rfl rfl rfl rfl

/-! ## C2 -/

/-- C2: for every starting state, when every configured source fails
(unreachable, non-ok response, malformed body, or throwing parse), the call
leaves the current-price state exactly as it was and reports the failure
outcome by returning `null`. -/
theorem c2_all_fail_state_unchanged (sources : List ApiSource) (env : NetEnv)
    (st : FetchState) (ui : UIState)
    (h : ∀ i (hi : i < sources.length), sourceFails (sources.get ⟨i, hi⟩) (env i)) :
    (fetchBtcPrice sources env st ui).ret = .null ∧
    (fetchBtcPrice sources env st ui).state = st := by
  unfold fetchBtcPrice
  rw [runSources_allFail h]
  exact ⟨rfl, rfl⟩

/-- C2, witness: every configured source unreachable leaves the initial
state untouched and returns `null`. -/
theorem c2_all_fail_state_unchanged_witness :
    (fetchBtcPrice API_SOURCES envAllDown initialState uiPresent).ret = .null ∧
    (fetchBtcPrice API_SOURCES envAllDown initialState uiPresent).state = initialState :=
  c2_all_fail_state_unchanged API_SOURCES envAllDown initialState uiPresent
    (fun _ _ => trivial)

/-! ## C3 -/

/-- C3, counterexample.  Against the real source list, a CoinGecko response
`{"bitcoin": {}}` makes `data.bitcoin.eur` evaluate to `undefined` without
throwing; `fetchBtcPrice` records `undefined` as the current price,
dispatches a success event carrying it, and returns it — so the recorded
state is neither unset (`null`) nor a structurally valid numeric value. -/
theorem c3_counterexample :
    (fetchBtcPrice API_SOURCES envGeckoNoEur initialState noUI).state.btcPrice = .undefined ∧
    (fetchBtcPrice API_SOURCES envGeckoNoEur initialState noUI).ret = .undefined ∧
    (fetchBtcPrice API_SOURCES envGeckoNoEur initialState noUI).events = [.undefined] ∧
    isValidPrice .undefined = false ∧
    JsVal.undefined ≠ JsVal.null := by
  refine ⟨rfl, rfl, rfl, rfl, ?_⟩
  simp

/-- C3, amended: `fetchBtcPrice` records whatever value the winning parse
rule returned, with no validity check — `undefined`, `null` or `NaN`
included.  What holds is provenance: after any call the current-price
state is either exactly its value from before the call, or the value some
source's parse rule returned on the body of an ok response during the
call. -/
theorem c3_price_provenance (sources : List ApiSource) (env : NetEnv)
    (st : FetchState) (ui : UIState) :
    (fetchBtcPrice sources env st ui).state.btcPrice = st.btcPrice ∨
      ∃ (i : ℕ) (hi : i < sources.length) (resp : JsResponse) (data : JsVal),
        env i = .success resp ∧ resp.ok = true ∧ resp.body = .ok data ∧
        (sources.get ⟨i, hi⟩).parsePrice data =
          .ok ((fetchBtcPrice sources env st ui).state.btcPrice) :=
  runSources_price_provenance env sources st (uiLoading ui)

/-! ## C4 -/

/-- C4: for every environment — any combination of rejected fetches, non-ok
responses, malformed bodies, throwing parse rules and unrenderable parsed
values — `fetchBtcPrice` never lets an exception past its boundary: the
exception-transparent model always returns `.ok` of the total model's
result, so every internal error is observable only through the returned
outcome. -/
theorem c4_no_throw_past_boundary (sources : List ApiSource) (env : NetEnv)
    (st : FetchState) (ui : UIState) :
    fetchBtcPriceE sources env st ui = .ok (fetchBtcPrice sources env st ui) :=
  runSourcesE_eq_ok env sources st (uiLoading ui)

/-! ## C9 -/

/-- C9, counterexample.  Fix the real source list and one environment:
CoinGecko answers ok with `{"bitcoin": {}}` (parse returns `undefined`),
Blockchain.info answers ok with a valid `50000`, CoinCap is down.  With no
UI attached the call succeeds at CoinGecko, returning `undefined` after one
attempt.  With the presentation elements attached, `formatEur(undefined)`
throws inside the `try` block, CoinGecko is skipped, and the call succeeds
at Blockchain.info with `50000` after two attempts — same environment,
different returned outcome and different final state. -/
theorem c9_counterexample :
    (fetchBtcPrice API_SOURCES envC9 initialState noUI).ret = .undefined ∧
    (fetchBtcPrice API_SOURCES envC9 initialState uiPresent).ret = .number (.fin 50000) ∧
    (fetchBtcPrice API_SOURCES envC9 initialState noUI).ret ≠
      (fetchBtcPrice API_SOURCES envC9 initialState uiPresent).ret ∧
    (fetchBtcPrice API_SOURCES envC9 initialState noUI).attempts = 1 ∧
    (fetchBtcPrice API_SOURCES envC9 initialState uiPresent).attempts = 2 ∧
    (fetchBtcPrice API_SOURCES envC9 initialState noUI).state.currentApiSource =
      .str "CoinGecko" ∧
    (fetchBtcPrice API_SOURCES envC9 initialState uiPresent).state.currentApiSource =
      .str "Blockchain.info" := by
  refine ⟨rfl, rfl, ?_, rfl, rfl, rfl, rfl⟩
  show JsVal.undefined ≠ JsVal.number (.fin 50000)
  simp

/-- C9, amended: UI attachment cannot influence the outcome as long as no
configured parse rule can return an unrenderable value (`undefined` or
`null`) — in particular whenever every successful parse yields a numeric
value.  Under that proviso, two calls in the same environment with any two
UI configurations return the same value and leave the same state, attempt
count and dispatched events.  (Without the proviso the claim fails: the
counterexample's `formatEur(undefined)` throws only when a price display is
attached.) -/
theorem c9_ui_independence (sources : List ApiSource) (env : NetEnv)
    (st : FetchState) (ui1 ui2 : UIState)
    (hsafe : ∀ i (hi : i < sources.length) data v,
      (sources.get ⟨i, hi⟩).parsePrice data = .ok v → formatEurThrows v = false) :
    (fetchBtcPrice sources env st ui1).ret = (fetchBtcPrice sources env st ui2).ret ∧
    (fetchBtcPrice sources env st ui1).state = (fetchBtcPrice sources env st ui2).state ∧
    (fetchBtcPrice sources env st ui1).attempts =
      (fetchBtcPrice sources env st ui2).attempts ∧
    (fetchBtcPrice sources env st ui1).events = (fetchBtcPrice sources env st ui2).events :=
  runSources_ui_independent hsafe env st (uiLoading ui1) (uiLoading ui2)

/-- C9, witness: a single source always parsing to the number `50000`
drives identical outcomes with and without the UI attached. -/
theorem c9_ui_independence_witness :
    (fetchBtcPrice [srcValid] envAllOk initialState uiPresent).ret =
      (fetchBtcPrice [srcValid] envAllOk initialState noUI).ret ∧
    (fetchBtcPrice [srcValid] envAllOk initialState uiPresent).state =
      (fetchBtcPrice [srcValid] envAllOk initialState noUI).state ∧
    (fetchBtcPrice [srcValid] envAllOk initialState uiPresent).attempts =
      (fetchBtcPrice [srcValid] envAllOk initialState noUI).attempts ∧
    (fetchBtcPrice [srcValid] envAllOk initialState uiPresent).events =
      (fetchBtcPrice [srcValid] envAllOk initialState noUI).events :=
  c9_ui_independence [srcValid] envAllOk initialState uiPresent noUI
    (fun i hi data v h => by
      have hz : i = 0 := Nat.lt_one_iff.mp (by simpa using hi)
      subst hz
      simp only [srcValid, List.get_cons_zero] at h
      cases h
      rfl)

/-! ## C10 -/

/-- C10, counterexample.  Start from a state recorded by an earlier
successful fetch (`price 100 via "X"`).  CoinGecko answers ok with
`{"bitcoin": {"eur": null}}`: the parse returns `null` without throwing, so
the call records `null` as the price and `"CoinGecko"` as the source and
returns `null` — a null return on which the stored price and source did
not retain their pre-call values. -/
theorem c10_counterexample :
    (fetchBtcPrice API_SOURCES envGeckoNullEur staleState noUI).ret = .null ∧
    (fetchBtcPrice API_SOURCES envGeckoNullEur staleState noUI).state.btcPrice = .null ∧
    staleState.btcPrice = .number (.fin 100) ∧
    (fetchBtcPrice API_SOURCES envGeckoNullEur staleState noUI).state.btcPrice ≠
      staleState.btcPrice ∧
    (fetchBtcPrice API_SOURCES envGeckoNullEur staleState noUI).state.currentApiSource ≠
      staleState.currentApiSource := by
  refine ⟨rfl, rfl, rfl, ?_, ?_⟩
  · show JsVal.null ≠ JsVal.number (.fin 100)
    simp
  · show JsVal.str "CoinGecko" ≠ JsVal.str "X"
    simp

/-- C10, amended: whenever `fetchBtcPrice` returns a non-null value, the
stored current price (`getBtcPrice`) equals that value and the stored
source name is the succeeding source's name, with the loop stopped right
after it.  The null-return clause survives only for total failure: when
every source fails (unreachable, non-ok, malformed body, or throwing
parse), both stored fields retain exactly their pre-call values.  (A parse
returning `null`, or — with a price display attached — an unrenderable
value, makes the call return `null` with the state overwritten, as the
counterexample shows.) -/
theorem c10_return_state_agreement (sources : List ApiSource) (env : NetEnv)
    (st : FetchState) (ui : UIState) :
    ((fetchBtcPrice sources env st ui).ret ≠ .null →
      ∃ (i : ℕ) (hi : i < sources.length),
        getBtcPrice (fetchBtcPrice sources env st ui).state =
          (fetchBtcPrice sources env st ui).ret ∧
        (fetchBtcPrice sources env st ui).state.currentApiSource =
          .str ((sources.get ⟨i, hi⟩).name) ∧
        (∃ resp data, env i = .success resp ∧ resp.ok = true ∧ resp.body = .ok data ∧
          (sources.get ⟨i, hi⟩).parsePrice data =
            .ok ((fetchBtcPrice sources env st ui).ret)) ∧
        (fetchBtcPrice sources env st ui).attempts = i + 1) ∧
    ((∀ i (hi : i < sources.length), sourceFails (sources.get ⟨i, hi⟩) (env i)) →
      (fetchBtcPrice sources env st ui).state = st) := by
  constructor
  · intro hne
    obtain ⟨i, hi, resp, data, h1, h2, h3, h4, h5, h6, h7⟩ :=
      @runSources_ret_of_ne_null env sources st (uiLoading ui) hne
    exact ⟨i, hi, h5, h6, ⟨resp, data, h1, h2, h3, h4⟩, h7⟩
  · intro hfail
    unfold fetchBtcPrice
    rw [runSources_allFail hfail]

/-- C10, witness: both halves at concrete inputs — a successful run whose
returned `50000` matches the stored state and source attribution, and a
total-failure run that leaves the stale state untouched. -/
theorem c10_return_state_agreement_witness :
    (∃ (i : ℕ) (hi : i < ([srcValid] : List ApiSource).length),
      getBtcPrice (fetchBtcPrice [srcValid] envAllOk staleState noUI).state =
        (fetchBtcPrice [srcValid] envAllOk staleState noUI).ret ∧
      (fetchBtcPrice [srcValid] envAllOk staleState noUI).state.currentApiSource =
        .str ((([srcValid] : List ApiSource).get ⟨i, hi⟩).name) ∧
      (∃ resp data, envAllOk i = .success resp ∧ resp.ok = true ∧
        resp.body = .ok data ∧
        (([srcValid] : List ApiSource).get ⟨i, hi⟩).parsePrice data =
          .ok ((fetchBtcPrice [srcValid] envAllOk staleState noUI).ret)) ∧
      (fetchBtcPrice [srcValid] envAllOk staleState noUI).attempts = i + 1) ∧
    (fetchBtcPrice [srcValid] envAllDown staleState noUI).state = staleState :=
  ⟨(c10_return_state_agreement [srcValid] envAllOk staleState noUI).1
      (by show JsVal.number (.fin 50000) ≠ JsVal.null; simp),
    (c10_return_state_agreement [srcValid] envAllDown staleState noUI).2
      (fun _ _ => trivial)⟩

/-! ## Conversion lemmas -/

/-- Rounding the product of zero sats never escapes zero. -/
theorem eurToSats_of_btc_zero {price : JsVal} {e : JsNumber}
    (h : eurToBtc price e = .fin 0) : eurToSats price e = .fin 0 := by
  unfold eurToSats
  rw [h]
  show JsNumber.fin ((⌊(0 : ℚ) * 100000000 + 1 / 2⌋ : ℤ) : ℚ) = .fin 0
  norm_num

/-- The `!btcPrice` guard: a `null` price short-circuits `eurToBtc`. -/
theorem eurToBtc_null (e : JsNumber) : eurToBtc .null e = .fin 0 := rfl

/-- The `!btcPrice` guard: a `null` price short-circuits `btcToEur`. -/
theorem btcToEur_null (b : JsNumber) : btcToEur .null b = .fin 0 := rfl

/-- The `eur <= 0` guard of `eurToBtc`. -/
theorem eurToBtc_nonpos (price : JsVal) {x : ℚ} (hx : x ≤ 0) :
    eurToBtc price (.fin x) = .fin 0 := by
  unfold eurToBtc
  have : jsLe (.fin x) (.fin 0) = true := by simp [jsLe, hx]
  rw [this, Bool.or_true]
  rfl

/-- The `btc <= 0` guard of `btcToEur`. -/
theorem btcToEur_nonpos (price : JsVal) {x : ℚ} (hx : x ≤ 0) :
    btcToEur price (.fin x) = .fin 0 := by
  unfold btcToEur
  have : jsLe (.fin x) (.fin 0) = true := by simp [jsLe, hx]
  rw [this, Bool.or_true]
  rfl

/-- Dividing a finite amount by the subunit scale. -/
theorem jsDivN_subunit (x : ℚ) :
    jsDivN (.fin x) (.fin 100000000) = .fin (x / 100000000) := by
  unfold jsDivN
  norm_num

/-! ## C5 -/

/-- C5: every conversion function returns `0` whenever the current price is
unset (`null`) or the input amount is non-positive, and in particular
`eurToSats 0 = 0` and `eurToSats (-5) = 0` for every value of the current
price.  (The functions are pure by construction: they are functions of the
price and the amount alone.) -/
theorem c5_conversion_guards (price : JsVal) (x : ℚ) :
    ((price = JsVal.null ∨ x ≤ 0) →
      eurToBtc price (.fin x) = .fin 0 ∧ eurToSats price (.fin x) = .fin 0 ∧
      btcToEur price (.fin x) = .fin 0 ∧ satsToEur price (.fin x) = .fin 0) ∧
    eurToSats price (.fin 0) = .fin 0 ∧ eurToSats price (.fin (-5)) = .fin 0 := by
  refine ⟨?_, ?_, ?_⟩
  · rintro (hp | hx)
    · subst hp
      refine ⟨eurToBtc_null _, eurToSats_of_btc_zero (eurToBtc_null _), btcToEur_null _, ?_⟩
      unfold satsToEur
      exact btcToEur_null _
    · refine ⟨eurToBtc_nonpos price hx, eurToSats_of_btc_zero (eurToBtc_nonpos price hx),
        btcToEur_nonpos price hx, ?_⟩
      unfold satsToEur
      rw [jsDivN_subunit]
      exact btcToEur_nonpos price (div_nonpos_iff.mpr (Or.inr ⟨hx, by norm_num⟩))
  · exact eurToSats_of_btc_zero (eurToBtc_nonpos price le_rfl)
  · exact eurToSats_of_btc_zero (eurToBtc_nonpos price (by norm_num))

/-- C5, witness: the guards at `price = null`, `x = -1`, together with the
price-independent `eurToSats` cases at a truthy non-numeric price. -/
theorem c5_conversion_guards_witness :
    (eurToBtc .null (.fin (-1)) = .fin 0 ∧ eurToSats .null (.fin (-1)) = .fin 0 ∧
      btcToEur .null (.fin (-1)) = .fin 0 ∧ satsToEur .null (.fin (-1)) = .fin 0) ∧
    eurToSats (.str "boom") (.fin 0) = .fin 0 ∧
    eurToSats (.str "boom") (.fin (-5)) = .fin 0 :=
  ⟨(c5_conversion_guards .null (-1)).1 (Or.inl rfl),
    (c5_conversion_guards (.str "boom") (-1)).2⟩

/-- Evaluation of `eurToBtc` at a truthy finite price and positive amount. -/
theorem eurToBtc_pos {q x : ℚ} (hq : 0 < q) (hx : 0 < x) :
    eurToBtc (.number (.fin q)) (.fin x) = .fin (x / q) := by
  unfold eurToBtc
  have h1 : jsFalsy (.number (.fin q)) = false := by simp [jsFalsy, hq.ne']
  have h2 : jsLe (.fin x) (.fin 0) = false := by simp [jsLe, hx.not_le]
  rw [h1, h2]
  show jsDivN (.fin x) (.fin q) = .fin (x / q)
  simp [jsDivN, hq.ne']

/-- Evaluation of `btcToEur` at a truthy finite price and positive amount. -/
theorem btcToEur_pos {q x : ℚ} (hq : 0 < q) (hx : 0 < x) :
    btcToEur (.number (.fin q)) (.fin x) = .fin (x * q) := by
  unfold btcToEur
  have h1 : jsFalsy (.number (.fin q)) = false := by simp [jsFalsy, hq.ne']
  have h2 : jsLe (.fin x) (.fin 0) = false := by simp [jsLe, hx.not_le]
  rw [h1, h2]
  rfl

/-- A falsy price short-circuits `eurToBtc`. -/
theorem eurToBtc_falsy {price : JsVal} (h : jsFalsy price = true) (e : JsNumber) :
    eurToBtc price e = .fin 0 := by
  unfold eurToBtc
  rw [h, Bool.true_or]
  rfl

/-! ## C8 -/

/-- C8: for every finite input amount and every non-negative current price
— set to a non-negative finite number or still unset — `eurToSats` returns
a whole, non-negative number of subunits: a natural number cast into the
JS numbers. -/
theorem c8_sats_whole_nonneg (price : JsVal) (x : ℚ)
    (hprice : price = JsVal.null ∨ ∃ q : ℚ, 0 ≤ q ∧ price = .number (.fin q)) :
    ∃ n : ℕ, eurToSats price (.fin x) = .fin (n : ℚ) := by
  have zeroCase : eurToSats price (.fin x) = .fin 0 → ∃ n : ℕ, eurToSats price (.fin x) = .fin (n : ℚ) := by
    intro h
    exact ⟨0, by simpa using h⟩
  rcases hprice with hp | ⟨q, hq0, hp⟩
  · subst hp
    exact zeroCase (eurToSats_of_btc_zero (eurToBtc_null _))
  · subst hp
    rcases hq0.lt_or_eq with hq | hq
    · rcases le_or_lt x 0 with hx | hx
      · exact zeroCase (eurToSats_of_btc_zero (eurToBtc_nonpos _ hx))
      · refine ⟨(⌊x / q * 100000000 + 1 / 2⌋).toNat, ?_⟩
        have hs : (0 : ℤ) ≤ ⌊x / q * 100000000 + 1 / 2⌋ := by
          apply Int.le_floor.mpr
          have : (0 : ℚ) < x / q * 100000000 := by positivity
          push_cast
          linarith
        unfold eurToSats
        rw [eurToBtc_pos hq hx]
        show JsNumber.fin ((⌊x / q * 100000000 + 1 / 2⌋ : ℤ) : ℚ) = _
        congr 1
        exact_mod_cast (Int.toNat_of_nonneg hs).symm
    · subst hq
      exact zeroCase (eurToSats_of_btc_zero (eurToBtc_falsy (by simp [jsFalsy]) _))

/-- C8, witness: at the unset price and amount `1` the result is a natural
number of subunits. -/
theorem c8_sats_whole_nonneg_witness :
    ∃ n : ℕ, eurToSats .null (.fin 1) = .fin (n : ℚ) :=
  c8_sats_whole_nonneg .null 1 (Or.inl rfl)

/-! ## C7 -/

/-- C7: for every positive fiat amount `a` and positive finite price `p`,
`btcToEur (eurToBtc a)` reproduces `a` exactly (the model computes over
exact rationals), and `satsToEur (eurToSats a)` reproduces `a` up to the
half-subunit tolerance `p / (2 * 10^8)` introduced by rounding to whole
subunits. -/
theorem c7_roundtrip (a p : ℚ) (ha : 0 < a) (hp : 0 < p) :
    btcToEur (.number (.fin p)) (eurToBtc (.number (.fin p)) (.fin a)) = .fin a ∧
    ∃ r : ℚ, satsToEur (.number (.fin p)) (eurToSats (.number (.fin p)) (.fin a)) = .fin r ∧
      |r - a| ≤ p / (2 * 100000000) := by
  constructor
  · rw [eurToBtc_pos hp ha, btcToEur_pos hp (div_pos ha hp), div_mul_cancel₀ a hp.ne']
  · have hsats : eurToSats (.number (.fin p)) (.fin a) =
        .fin ((⌊a / p * 100000000 + 1 / 2⌋ : ℤ) : ℚ) := by
      unfold eurToSats
      rw [eurToBtc_pos hp ha]
      rfl
    rw [hsats]
    have hs : (0 : ℤ) ≤ ⌊a / p * 100000000 + 1 / 2⌋ := by
      apply Int.le_floor.mpr
      have : (0 : ℚ) < a / p * 100000000 := by positivity
      push_cast
      linarith
    have h1 : ((⌊a / p * 100000000 + 1 / 2⌋ : ℤ) : ℚ) ≤ a / p * 100000000 + 1 / 2 :=
      Int.floor_le _
    have h2 : a / p * 100000000 + 1 / 2 < (⌊a / p * 100000000 + 1 / 2⌋ : ℤ) + 1 :=
      Int.lt_floor_add_one _
    rcases hs.lt_or_eq with hspos | hszero
    · refine ⟨((⌊a / p * 100000000 + 1 / 2⌋ : ℤ) : ℚ) / 100000000 * p, ?_, ?_⟩
      · unfold satsToEur
        rw [jsDivN_subunit]
        exact btcToEur_pos hp (div_pos (by exact_mod_cast hspos) (by norm_num))
      · have key : ((⌊a / p * 100000000 + 1 / 2⌋ : ℤ) : ℚ) / 100000000 * p - a =
            (((⌊a / p * 100000000 + 1 / 2⌋ : ℤ) : ℚ) - a / p * 100000000) *
              (p / 100000000) := by
          field_simp
          ring
        have hppos : (0 : ℚ) < p / 100000000 := by positivity
        have hub : (((⌊a / p * 100000000 + 1 / 2⌋ : ℤ) : ℚ) - a / p * 100000000) *
            (p / 100000000) ≤ (1 / 2) * (p / 100000000) :=
          mul_le_mul_of_nonneg_right (by linarith) hppos.le
        have hlb : (-(1 / 2)) * (p / 100000000) ≤
            (((⌊a / p * 100000000 + 1 / 2⌋ : ℤ) : ℚ) - a / p * 100000000) *
              (p / 100000000) :=
          (mul_lt_mul_of_pos_right (by linarith) hppos).le
        rw [abs_le, key]
        have e1 : (1 / 2 : ℚ) * (p / 100000000) = p / (2 * 100000000) := by ring
        have e2 : (-(1 / 2) : ℚ) * (p / 100000000) = -(p / (2 * 100000000)) := by ring
        constructor <;> linarith
    · refine ⟨0, ?_, ?_⟩
      · unfold satsToEur
        rw [← hszero]
        rw [show ((0 : ℤ) : ℚ) = 0 from rfl, jsDivN_subunit]
        exact btcToEur_nonpos _ (by norm_num)
      · have hlt : a / p * 100000000 + 1 / 2 < 1 := by
          rw [← hszero] at h2
          push_cast at h2
          linarith
        have h3 : a * 100000000 / p < 1 / 2 := by
          rw [div_mul_eq_mul_div] at hlt
          linarith
        have h4 : a * 100000000 < 1 / 2 * p := (div_lt_iff₀ hp).mp h3
        rw [zero_sub, abs_neg, abs_of_pos ha]
        linarith

/-- C7, witness: the round trips at `a = 3`, `p = 2`. -/
theorem c7_roundtrip_witness :
    btcToEur (.number (.fin 2)) (eurToBtc (.number (.fin 2)) (.fin 3)) = .fin 3 ∧
    ∃ r : ℚ, satsToEur (.number (.fin 2)) (eurToSats (.number (.fin 2)) (.fin 3)) = .fin r ∧
      |r - 3| ≤ 2 / (2 * 100000000) :=
  c7_roundtrip 3 2 (by norm_num) (by norm_num)

/-! ## C6 -/

/-- C6: the third configured source is CoinCap, and on every response whose
`data.data.priceUsd` path is readable its parse rule returns exactly
`parseFloat` of that value multiplied by the hardcoded constant `0.92` —
a fixed USD-to-EUR factor, not a live exchange rate. -/
theorem c6_coincap_hardcoded_rate (h3 : 2 < API_SOURCES.length) :
    (API_SOURCES.get ⟨2, h3⟩).name = "CoinCap" ∧
    ∀ (data d pUsd : JsVal), jsGetProp data "data" = .ok d →
      jsGetProp d "priceUsd" = .ok pUsd →
      (API_SOURCES.get ⟨2, h3⟩).parsePrice data =
        .ok (.number (jsMulN (jsParseFloat pUsd) (.fin (92 / 100)))) := by
  refine ⟨rfl, ?_⟩
  intro data d pUsd h1 h2
  show coinCapParsePrice data = _
  unfold coinCapParsePrice
  rw [h1]
  show Except.bind (jsGetProp d "priceUsd") _ = _
  rw [h2]
  rfl

/-- C6, witness: a CoinCap body carrying `priceUsd = 65000` parses to
`65000 * 0.92`. -/
theorem c6_coincap_hardcoded_rate_witness :
    (API_SOURCES.get ⟨2, by norm_num [API_SOURCES]⟩).name = "CoinCap" ∧
    (API_SOURCES.get ⟨2, by norm_num [API_SOURCES]⟩).parsePrice
        (.obj [("data", .obj [("priceUsd", .number (.fin 65000))])]) =
      .ok (.number (jsMulN (jsParseFloat (.number (.fin 65000))) (.fin (92 / 100)))) :=
  ⟨(c6_coincap_hardcoded_rate (by norm_num [API_SOURCES])).1,
    (c6_coincap_hardcoded_rate (by norm_num [API_SOURCES])).2
      (.obj [("data", .obj [("priceUsd", .number (.fin 65000))])])
      (.obj [("priceUsd", .number (.fin 65000))]) (.number (.fin 65000)) rfl rfl⟩

end BtcCalc
